import Mathlib

set_option maxRecDepth 10000

/-!
Verification of the game engine in `src/tetris.c` (UEFI Tetris).

The engine state (the well, the active piece, the bag, score/level counters)
is embedded as a Lean structure, and each C function of the engine
(`collide`, `spawn`, `ghost`, `move`, `rotate`, `soft_drop`, `lock`,
`update`, `clear_rows`, `drop`, `shuffle`) is translated into an executable
Lean function over that structure.  C machine integers are modelled as
`Nat` / `Int` with explicit wrapping (`% 2 ^ 32` for `uint32_t` stores,
`% 256` for `uint8_t` stores, `int8` below for `int8_t` stores) at the
points where the C program stores into a narrower type.
-/

namespace Tetris

/-! ## Constants (tetris.c lines 39-57) -/

def WELL_WIDTH : Nat := 10
def WELL_HEIGHT : Nat := 22
def INITIAL_SPEED : Nat := 1000
def SCORE_FACTOR_1 : Nat := 100
def SCORE_FACTOR_2 : Nat := 300
def SCORE_FACTOR_3 : Nat := 500
def SCORE_FACTOR_4 : Nat := 800
def SOFT_DROP_SCORE : Nat := 1
def HARD_DROP_SCORE_FACTOR : Nat := 2
def ROWS_PER_LEVEL : Nat := 10
def BAG_SIZE : Nat := 7

/-- Modulus of `uint32_t` arithmetic (`2 ^ 32`). -/
def u32 : Nat := 4294967296

/-- Result of storing an integer value into a C `int8_t` (two's complement
wrap-around). -/
def int8 (v : Int) : Int := (v + 128) % 256 - 128

/-! ## The shape catalog `TETRIS` (tetris.c lines 392-519)

7 kinds (I, J, L, O, S, T, Z in this order) times 4 rotations times a
4 x 4 grid of color values; 0 is an empty cell. -/

def TETRIS : List (List (List (List Nat))) := [
  [ -- I
    [[0,0,0,0], [4,4,4,4], [0,0,0,0], [0,0,0,0]],
    [[0,4,0,0], [0,4,0,0], [0,4,0,0], [0,4,0,0]],
    [[0,0,0,0], [4,4,4,4], [0,0,0,0], [0,0,0,0]],
    [[0,4,0,0], [0,4,0,0], [0,4,0,0], [0,4,0,0]]],
  [ -- J
    [[7,0,0,0], [7,7,7,0], [0,0,0,0], [0,0,0,0]],
    [[0,7,7,0], [0,7,0,0], [0,7,0,0], [0,0,0,0]],
    [[0,0,0,0], [7,7,7,0], [0,0,7,0], [0,0,0,0]],
    [[0,7,0,0], [0,7,0,0], [7,7,0,0], [0,0,0,0]]],
  [ -- L
    [[0,0,5,0], [5,5,5,0], [0,0,0,0], [0,0,0,0]],
    [[0,5,0,0], [0,5,0,0], [0,5,5,0], [0,0,0,0]],
    [[0,0,0,0], [5,5,5,0], [5,0,0,0], [0,0,0,0]],
    [[5,5,0,0], [0,5,0,0], [0,5,0,0], [0,0,0,0]]],
  [ -- O
    [[0,0,0,0], [0,1,1,0], [0,1,1,0], [0,0,0,0]],
    [[0,0,0,0], [0,1,1,0], [0,1,1,0], [0,0,0,0]],
    [[0,0,0,0], [0,1,1,0], [0,1,1,0], [0,0,0,0]],
    [[0,0,0,0], [0,1,1,0], [0,1,1,0], [0,0,0,0]]],
  [ -- S
    [[0,0,0,0], [0,2,2,0], [2,2,0,0], [0,0,0,0]],
    [[0,2,0,0], [0,2,2,0], [0,0,2,0], [0,0,0,0]],
    [[0,0,0,0], [0,2,2,0], [2,2,0,0], [0,0,0,0]],
    [[0,2,0,0], [0,2,2,0], [0,0,2,0], [0,0,0,0]]],
  [ -- T
    [[0,6,0,0], [6,6,6,0], [0,0,0,0], [0,0,0,0]],
    [[0,6,0,0], [0,6,6,0], [0,6,0,0], [0,0,0,0]],
    [[0,0,0,0], [6,6,6,0], [0,6,0,0], [0,0,0,0]],
    [[0,6,0,0], [6,6,0,0], [0,6,0,0], [0,0,0,0]]],
  [ -- Z
    [[0,0,0,0], [3,3,0,0], [0,3,3,0], [0,0,0,0]],
    [[0,0,3,0], [0,3,3,0], [0,3,0,0], [0,0,0,0]],
    [[0,0,0,0], [3,3,0,0], [0,3,3,0], [0,0,0,0]],
    [[0,0,3,0], [0,3,3,0], [0,3,0,0], [0,0,0,0]]]]

/-- `TETRIS[i][r][yy][xx]`. -/
def tetrisCell (i r yy xx : Nat) : Nat :=
  (((TETRIS.getD i []).getD r []).getD yy []).getD xx 0

/-- `well[y][x]` for board coordinates already known to be in bounds
(the C code only reads the well after its bound checks have passed). -/
def wellCell (w : List (List Nat)) (y x : Int) : Nat :=
  (w.getD y.toNat []).getD x.toNat 0

/-! ## collide (tetris.c lines 541-552) -/

/-- `collide(i, r, x, y)`: true if the tetrimino `i` in rotation `r`
collides when placed at `(x, y)` over the well `w`. -/
def collide (w : List (List Nat)) (i r : Nat) (x y : Int) : Bool :=
  (List.range 4).any fun yy =>
    (List.range 4).any fun xx =>
      tetrisCell i r yy xx != 0 &&
      (decide (x + (xx : Int) < 0) || decide (10 ≤ x + (xx : Int)) ||
       decide (y + (yy : Int) < 0) || decide (22 ≤ y + (yy : Int)) ||
       (wellCell w (y + (yy : Int)) (x + (xx : Int)) != 0))

/-- The collision test exactly as the specification words it for claim C1:
identical to `collide` except that there is no bound check against the top
of the well (no `y + yy < 0` test).  This definition follows the spec text,
not the source, and exists only to be compared with `collide`. -/
def collideSpecNoTop (w : List (List Nat)) (i r : Nat) (x y : Int) : Bool :=
  (List.range 4).any fun yy =>
    (List.range 4).any fun xx =>
      tetrisCell i r yy xx != 0 &&
      (decide (x + (xx : Int) < 0) || decide (10 ≤ x + (xx : Int)) ||
       decide (22 ≤ y + (yy : Int)) ||
       (wellCell w (y + (yy : Int)) (x + (xx : Int)) != 0))

/-! ## Game state

The C engine keeps its state in globals: `well`, the `current` struct
(fields `i`, `r`, `p`, `x`, `y`, `g`), `bag`, `stats`, `score`, `level`,
`speed`, `level_up`, `game_over`, `cleared_rows`, and the static local
`level_rows` inside `update`.  They are gathered into one structure. -/

structure GameState where
  well : List (List Nat)
  i : Nat
  r : Nat
  p : Nat
  x : Int
  y : Int
  g : Int
  bag : List Nat
  stats : List Nat
  score : Nat
  level : Nat
  speed : Nat
  level_up : Nat
  level_rows : Nat
  game_over : Bool
  cleared_rows : List Int
deriving DecidableEq

/-! ## shuffle (tetris.c lines 376-386)

`rand(range)` reads the CPU tick counter; the successive tick values are
supplied by an oracle `ent : Nat → Nat`, indexed by the loop counter. -/

/-- `rand(range)` at loop index `k`: tick value modulo `range`. -/
def randAt (ent : Nat → Nat) (k range : Nat) : Nat := ent k % range

/-- One Fisher-Yates swap: `t = arr[a]; arr[a] = arr[b]; arr[b] = t`. -/
def listSwap (arr : List Nat) (a b : Nat) : List Nat :=
  (arr.set a (arr.getD b 0)).set b (arr.getD a 0)

/-- The shuffle loop `for (i = len - 1; i > 0; i--)`, with `n` the current
value of `i`. -/
def shuffleGo (ent : Nat → Nat) : List Nat → Nat → List Nat
  | arr, 0 => arr
  | arr, n + 1 => shuffleGo ent (listSwap arr (n + 1) (randAt ent (n + 1) (n + 2))) n

/-- `shuffle(arr, len)`. -/
def shuffle (ent : Nat → Nat) (arr : List Nat) (len : Nat) : List Nat :=
  shuffleGo ent arr (len - 1)

/-! ## spawn (tetris.c lines 561-573) -/

/-- `stats[k]++` (a `uint32_t` counter). -/
def bumpStat (stats : List Nat) (k : Nat) : List Nat :=
  stats.set k ((stats.getD k 0 + 1) % u32)

/-- `spawn()`: deal `bag[current.p]` as the new active piece at rotation 0,
`x = WELL_WIDTH / 2 - 2`, `y = 0`; bump its statistics counter; advance the
cursor, reshuffling the bag and resetting the cursor when it passes the
last slot.  No collision check is performed. -/
def spawn (ent : Nat → Nat) (s : GameState) : GameState :=
  let k := s.bag.getD s.p 0
  let p1 := (s.p + 1) % 256
  let s1 : GameState :=
    { s with i := k, stats := bumpStat s.stats k, r := 0,
             x := (WELL_WIDTH : Int) / 2 - 2, y := 0, p := p1 }
  if p1 = BAG_SIZE then { s1 with p := 0, bag := shuffle ent s1.bag BAG_SIZE }
  else s1

/-! ## ghost (tetris.c lines 577-584) -/

/-- The scan `for (y = current.y; y < WELL_HEIGHT; y++) if (collide(...)) break;`
returning the final value of `y`; `fuel` counts the remaining iterations. -/
def ghostLoop (w : List (List Nat)) (i r : Nat) (x : Int) : Int → Nat → Int
  | yv, 0 => yv
  | yv, fuel + 1 => if collide w i r x yv then yv else ghostLoop w i r x (yv + 1) fuel

/-- `ghost()`: set `current.g` to one less than the first colliding
y-coordinate at or below `current.y` (or to `WELL_HEIGHT - 1` if none). -/
def ghost (s : GameState) : GameState :=
  { s with g := ghostLoop s.well s.i s.r s.x s.y ((WELL_HEIGHT : Int) - s.y).toNat - 1 }

/-! ## move, rotate, soft_drop (tetris.c lines 588-620) -/

/-- `move(dx, dy)`: no-op returning false when game over; otherwise test
collision at the translated position and commit it only if free. -/
def move (s : GameState) (dx dy : Int) : GameState × Bool :=
  if s.game_over then (s, false)
  else if collide s.well s.i s.r (int8 (s.x + dx)) (int8 (s.y + dy)) then (s, false)
  else ({ s with x := int8 (s.x + dx), y := int8 (s.y + dy) }, true)

/-- `rotate()`: no-op returning false when game over; otherwise test
collision at the same position with rotation `(r + 1) % 4` and commit only
the new rotation if free. -/
def rotate (s : GameState) : GameState × Bool :=
  if s.game_over then (s, false)
  else
    let r1 := (s.r + 1) % 4
    if collide s.well s.i r1 s.x s.y then (s, false)
    else ({ s with r := r1 }, true)

/-- `soft_drop()`: `move(0, 1)` and award `SOFT_DROP_SCORE` on success. -/
def soft_drop (s : GameState) : GameState :=
  match move s 0 1 with
  | (s1, true) => { s1 with score := (s1.score + SOFT_DROP_SCORE) % u32 }
  | (s1, false) => s1

/-! ## lock (tetris.c lines 624-632) -/

/-- Store value `v` at well cell `(y, x)`.  The C code writes
unconditionally; a write outside the well is undefined behaviour there and
unreachable in play, so the model only performs in-bounds writes. -/
def setWell (w : List (List Nat)) (y x : Int) (v : Nat) : List (List Nat) :=
  if 0 ≤ y ∧ 0 ≤ x then w.set y.toNat ((w.getD y.toNat []).set x.toNat v) else w

/-- `lock()`: copy every nonzero catalog cell of the current piece into the
well. -/
def lock (s : GameState) : GameState :=
  { s with well :=
      (List.range 4).foldl (fun w yy =>
        (List.range 4).foldl (fun w xx =>
          if tetrisCell s.i s.r yy xx ≠ 0 then
            setWell w (s.y + (yy : Int)) (s.x + (xx : Int)) (tetrisCell s.i s.r yy xx)
          else w) w) s.well }

/-! ## update (tetris.c lines 639-686) -/

/-- Whether well row `y` is full: the count of nonzero cells among
`x = 0 .. WELL_WIDTH - 1` equals `WELL_WIDTH`. -/
def rowFull (w : List (List Nat)) (y : Nat) : Bool :=
  ((List.range WELL_WIDTH).filter
      (fun x => wellCell w (y : Int) (x : Int) != 0)).length = WELL_WIDTH

/-- The row scan of `update`: the y-coordinates of all full rows, top to
bottom. -/
def fullRows (w : List (List Nat)) : List Nat :=
  (List.range WELL_HEIGHT).filter (fun y => rowFull w y)

/-- `cleared_rows[idx++] = y` for each detected row `y` (entries past the
end of the array are undefined behaviour in C and are dropped here; at most
4 rows can be full in reachable play). -/
def recordRows : List Int → List Nat → Nat → List Int
  | cr, [], _ => cr
  | cr, yv :: rest, idx => recordRows (cr.set idx (yv : Int)) rest (idx + 1)

/-- The scoring `switch` of `update` (tetris.c lines 671-676). -/
def updateScore (s : GameState) (rows : Nat) : GameState :=
  match rows with
  | 1 => { s with score := (s.score + SCORE_FACTOR_1 * s.level % u32) % u32 }
  | 2 => { s with score := (s.score + SCORE_FACTOR_2 * s.level % u32) % u32 }
  | 3 => { s with score := (s.score + SCORE_FACTOR_3 * s.level % u32) % u32 }
  | 4 => { s with score := (s.score + SCORE_FACTOR_4 * s.level % u32) % u32 }
  | _ => s

/-- The table of scoring factors keyed by the number of rows cleared in one
tick, used to state the scoring property (0 for counts outside 1..4). -/
def scoreFactor : Nat → Nat
  | 1 => SCORE_FACTOR_1
  | 2 => SCORE_FACTOR_2
  | 3 => SCORE_FACTOR_3
  | 4 => SCORE_FACTOR_4
  | _ => 0

/-- The gravity interval recomputed on level-up: `10 + 990 / level`
milliseconds (tetris.c line 683). -/
def speed_of_level (level : Nat) : Nat := 10 + 990 / level

/-- The leveling step of `update` (tetris.c lines 677-685): accumulate the
cleared-row count into `level_rows` (a `uint8_t`) and level up once it
reaches `ROWS_PER_LEVEL`. -/
def updateLevel (s : GameState) (rows : Nat) : GameState :=
  let lr := (s.level_rows + rows) % 256
  if ROWS_PER_LEVEL ≤ lr then
    { s with level := (s.level + 1) % u32,
             level_rows := lr - ROWS_PER_LEVEL,
             speed := speed_of_level ((s.level + 1) % u32),
             level_up := 1 }
  else { s with level_rows := lr }

/-- Row scan, scoring and leveling of `update` (everything after the
gravity step). -/
def updateScan (s : GameState) : GameState :=
  let ys := fullRows s.well
  updateLevel
    (updateScore { s with cleared_rows := recordRows s.cleared_rows ys 0 } ys.length)
    ys.length

/-- The gravity step of `update`: try `move(0, 1)`; on failure either
report game over (`none`, when `y` is still the spawn row 0) or lock the
piece and spawn a new one. -/
def gravityStep (ent : Nat → Nat) (s : GameState) : Option GameState :=
  match move s 0 1 with
  | (s1, true) => some s1
  | (s1, false) => if s1.y = 0 then none else some (spawn ent (lock s1))

/-- `update()` (tetris.c lines 639-686). -/
def update (ent : Nat → Nat) (s : GameState) : GameState :=
  match gravityStep ent s with
  | none => { s with game_over := true }
  | some s1 => updateScan s1

/-! ## clear_rows (tetris.c lines 690-701) -/

/-- The inner shift `for (y = R; y > 0; y--) well[y] = well[y - 1]`,
with `n` the current value of `y`. -/
def shiftDownFrom : List (List Nat) → Nat → List (List Nat)
  | w, 0 => w
  | w, n + 1 => shiftDownFrom (w.set (n + 1) (w.getD n [])) n

/-- The outer loop of `clear_rows`: stop at the first zero entry of
`cleared_rows`, otherwise shift and zero the entry. -/
def clearRowsGo : List (List Nat) → List Int → Nat → Nat → List (List Nat) × List Int
  | w, cr, _, 0 => (w, cr)
  | w, cr, idx, fuel + 1 =>
    let ry := cr.getD idx 0
    if ry = 0 then (w, cr)
    else clearRowsGo (shiftDownFrom w ry.toNat) (cr.set idx 0) (idx + 1) fuel

/-- `clear_rows()`: returns the new well and the new `cleared_rows`. -/
def clear_rows (w : List (List Nat)) (cr : List Int) : List (List Nat) × List Int :=
  clearRowsGo w cr 0 4

/-! ## drop (tetris.c lines 705-713) -/

/-- `drop()`: move to the ghost position, award
`HARD_DROP_SCORE_FACTOR * (g - y)` (converted to `uint32_t`), and trigger
one `update`. -/
def drop (ent : Nat → Nat) (s : GameState) : GameState :=
  if s.game_over then s
  else
    update ent
      { s with
          score := (s.score +
            (((HARD_DROP_SCORE_FACTOR : Int) * (s.g - s.y)) % (u32 : Int)).toNat) % u32,
          y := s.g }

/-! ## Initialization (tetris.c lines 533, 885-888) -/

/-- The initial (static initializer) value of `bag`. -/
def initialBag : List Nat := [0, 1, 2, 3, 4, 5, 6]

/-- The opening reshuffle loop
`do { shuffle(bag, BAG_SIZE); } while (bag[0] == 4 || bag[0] == 6);`,
one entropy oracle per iteration; `none` when the supplied entropy runs out
before an acceptable bag appears (the C loop would keep retrying). -/
def openingShuffle : List (Nat → Nat) → List Nat → Option (List Nat)
  | [], _ => none
  | e :: rest, b =>
    let b1 := shuffle e b BAG_SIZE
    if b1.getD 0 0 = 4 ∨ b1.getD 0 0 = 6 then openingShuffle rest b1 else some b1

/-- The kinds dealt by a sequence of `spawn` calls, one entropy oracle per
call. -/
def spawnDraws : List (Nat → Nat) → GameState → List Nat
  | [], _ => []
  | e :: rest, s =>
    let s1 := spawn e s
    s1.i :: spawnDraws rest s1

/-! ## Concrete states used by witnesses and counterexamples -/

/-- An empty well: 22 rows of 10 empty cells. -/
def emptyWell : List (List Nat) := List.replicate 22 (List.replicate 10 0)

/-- A fresh game state over well `w` with piece `(i, r)` at `(x, y)`. -/
def mkState (w : List (List Nat)) (i r p : Nat) (x y : Int) : GameState :=
  { well := w, i := i, r := r, p := p, x := x, y := y, g := 0,
    bag := initialBag, stats := List.replicate 7 0,
    score := 0, level := 1, speed := INITIAL_SPEED, level_up := 0,
    level_rows := 0, game_over := false, cleared_rows := [0, 0, 0, 0] }

/-- A row with a single nonzero cell of color `v` at column `x`. -/
def rowWithCell (x : Nat) (v : Nat) : List Nat := (List.replicate 10 0).set x v

/-- A fully occupied row. -/
def fullTestRow : List Nat := List.replicate 10 1

/-- Well with single occupied cells at (row 5, col 1) and (row 10, col 1):
an overhang under which a piece at columns 1-2 can rest in two places. -/
def overhangWell : List (List Nat) :=
  (emptyWell.set 5 (rowWithCell 1 4)).set 10 (rowWithCell 1 4)

/-- Well with rows 2 and 4 fully occupied, one cell at (row 0, col 0) and
one cell at (row 3, col 0). -/
def c2Well : List (List Nat) :=
  (((emptyWell.set 2 fullTestRow).set 4 fullTestRow).set 0
      (rowWithCell 0 9)).set 3 (rowWithCell 0 8)

/-- Well with a single occupied cell at (row 3, col 4), directly under the
spawn position of an O piece. -/
def blockedSpawnWell : List (List Nat) := emptyWell.set 3 (rowWithCell 4 9)

/-- Well whose bottom row (row 21) is fully occupied. -/
def bottomFullWell : List (List Nat) := emptyWell.set 21 fullTestRow

/-- A zero entropy oracle for witnesses. -/
def zeroEnt : Nat → Nat := fun _ => 0

/-! ## Helper lemmas -/

theorem int8_eq_self (v : Int) (h1 : -128 ≤ v) (h2 : v ≤ 127) : int8 v = v := by
  unfold int8
  omega

theorem move_gameover_eq (s : GameState) (dx dy : Int) (h : s.game_over = true) :
    move s dx dy = (s, false) := by
  simp [move, h]

theorem move_eq_of_not_gameover (s : GameState) (dx dy : Int) (h : s.game_over = false) :
    move s dx dy =
      if collide s.well s.i s.r (int8 (s.x + dx)) (int8 (s.y + dy)) then (s, false)
      else ({ s with x := int8 (s.x + dx), y := int8 (s.y + dy) }, true) := by
  simp [move, h]

theorem move_fail_fst (s : GameState) (dx dy : Int) (h : (move s dx dy).2 = false) :
    (move s dx dy).1 = s := by
  by_cases h1 : s.game_over = true
  · simp [move, h1]
  · by_cases h2 : collide s.well s.i s.r (int8 (s.x + dx)) (int8 (s.y + dy)) = true
    · simp [move, h1, h2]
    · simp [move, h1, h2] at h

theorem move_fst_cases (s : GameState) (dx dy : Int) :
    (move s dx dy).1 = s ∨
    (move s dx dy).1 = { s with x := int8 (s.x + dx), y := int8 (s.y + dy) } := by
  by_cases h1 : s.game_over = true
  · left
    simp [move, h1]
  · by_cases h2 : collide s.well s.i s.r (int8 (s.x + dx)) (int8 (s.y + dy)) = true
    · left
      simp [move, h1, h2]
    · right
      simp [move, h1, h2]

theorem move_fst_fields (s : GameState) (dx dy : Int) :
    ((move s dx dy).1).score = s.score ∧ ((move s dx dy).1).level = s.level ∧
    ((move s dx dy).1).level_rows = s.level_rows ∧
    ((move s dx dy).1).speed = s.speed ∧
    ((move s dx dy).1).game_over = s.game_over ∧ ((move s dx dy).1).well = s.well := by
  rcases move_fst_cases s dx dy with h | h <;> rw [h] <;> exact ⟨rfl, rfl, rfl, rfl, rfl, rfl⟩

theorem spawn_fields (ent : Nat → Nat) (s : GameState) :
    (spawn ent s).score = s.score ∧ (spawn ent s).level = s.level ∧
    (spawn ent s).level_rows = s.level_rows ∧
    (spawn ent s).speed = s.speed ∧
    (spawn ent s).game_over = s.game_over := by
  simp only [spawn]
  split <;> exact ⟨rfl, rfl, rfl, rfl, rfl⟩

theorem lock_fields (s : GameState) :
    (lock s).score = s.score ∧ (lock s).level = s.level ∧
    (lock s).level_rows = s.level_rows ∧ (lock s).speed = s.speed ∧
    (lock s).game_over = s.game_over := ⟨rfl, rfl, rfl, rfl, rfl⟩

theorem gravityStep_fields (ent : Nat → Nat) (s s1 : GameState)
    (h : gravityStep ent s = some s1) :
    s1.score = s.score ∧ s1.level = s.level ∧ s1.level_rows = s.level_rows ∧
    s1.speed = s.speed ∧ s1.game_over = s.game_over := by
  unfold gravityStep at h
  rcases hmv : move s 0 1 with ⟨sm, moved⟩
  rw [hmv] at h
  rcases moved with _ | _
  · dsimp only at h
    have hsm : sm = s := by
      have := move_fail_fst s 0 1 (by rw [hmv])
      rw [hmv] at this
      exact this
    subst hsm
    split at h
    · exact absurd h (by simp)
    · obtain rfl : spawn ent (lock sm) = s1 := by injection h
      have hs := spawn_fields ent (lock sm)
      have hl := lock_fields sm
      exact ⟨hs.1.trans hl.1, hs.2.1.trans hl.2.1, hs.2.2.1.trans hl.2.2.1,
             hs.2.2.2.1.trans hl.2.2.2.1, hs.2.2.2.2.trans hl.2.2.2.2⟩
  · dsimp only at h
    obtain rfl : sm = s1 := by injection h
    have := move_fst_fields s 0 1
    rw [hmv] at this
    exact ⟨this.1, this.2.1, this.2.2.1, this.2.2.2.1, this.2.2.2.2.1⟩

theorem updateScore_fields (s : GameState) (rows : Nat) :
    (updateScore s rows).level = s.level ∧ (updateScore s rows).level_rows = s.level_rows ∧
    (updateScore s rows).speed = s.speed ∧
    (updateScore s rows).game_over = s.game_over := by
  unfold updateScore
  split <;> exact ⟨rfl, rfl, rfl, rfl⟩

theorem updateLevel_fields (s : GameState) (rows : Nat) :
    (updateLevel s rows).score = s.score ∧
    (updateLevel s rows).game_over = s.game_over := by
  simp only [updateLevel]
  split <;> exact ⟨rfl, rfl⟩

theorem updateScan_game_over (s : GameState) : (updateScan s).game_over = s.game_over := by
  unfold updateScan
  rw [(updateLevel_fields _ _).2, (updateScore_fields _ _).2.2.2]

theorem getD_set {α : Type} (l : List α) (i j : Nat) (xv : α) (d : α) :
    (l.set i xv).getD j d = if i = j ∧ i < l.length then xv else l.getD j d := by
  induction l generalizing i j with
  | nil => simp
  | cons a t ih =>
    cases i with
    | zero =>
      cases j with
      | zero => simp
      | succ m => simp
    | succ n =>
      cases j with
      | zero => simp
      | succ m =>
        simp only [List.set_cons_succ, List.getD_cons_succ, ih, List.length_cons]
        by_cases h : n = m ∧ n < t.length
        · rw [if_pos h, if_pos (by omega)]
        · rw [if_neg h, if_neg (by omega)]

theorem shiftDownFrom_length : ∀ (n : Nat) (w : List (List Nat)),
    (shiftDownFrom w n).length = w.length := by
  intro n
  induction n with
  | zero => intro w; rfl
  | succ m ih =>
    intro w
    show (shiftDownFrom (w.set (m + 1) (w.getD m [])) m).length = w.length
    rw [ih, List.length_set]

theorem shiftDownFrom_getD : ∀ (n : Nat) (w : List (List Nat)), n < w.length → ∀ yv : Nat,
    (shiftDownFrom w n).getD yv [] =
      if 1 ≤ yv ∧ yv ≤ n then w.getD (yv - 1) [] else w.getD yv [] := by
  intro n
  induction n with
  | zero =>
    intro w hn yv
    rw [if_neg (by omega)]
    rfl
  | succ m ih =>
    intro w hn yv
    show (shiftDownFrom (w.set (m + 1) (w.getD m [])) m).getD yv [] = _
    rw [ih _ (by rw [List.length_set]; omega)]
    by_cases h1 : 1 ≤ yv ∧ yv ≤ m
    · rw [if_pos h1, if_pos (by omega), getD_set, if_neg (by omega)]
    · rw [if_neg h1, getD_set]
      by_cases h2 : yv = m + 1
      · rw [if_pos (by omega), if_pos (by omega)]
        congr 1
        omega
      · rw [if_neg (by omega), if_neg (by omega)]

theorem clear_rows_pair (w : List (List Nat)) (R1 R2 : Nat) (h1 : 1 ≤ R1) (h12 : R1 < R2) :
    clear_rows w [(R1 : Int), (R2 : Int), 0, 0] =
      (shiftDownFrom (shiftDownFrom w R1) R2, [0, 0, 0, 0]) := by
  have hr1 : ¬((R1 : Int) = 0) := by omega
  have hr2 : ¬((R2 : Int) = 0) := by omega
  simp [clear_rows, clearRowsGo, hr1, hr2, List.getD]

theorem bumpStat_getD (st : List Nat) (k : Nat) (h : k < st.length) :
    (bumpStat st k).getD k 0 = (st.getD k 0 + 1) % u32 := by
  unfold bumpStat
  rw [getD_set]
  simp [h]

theorem gravityStep_none_iff (ent : Nat → Nat) (s : GameState) :
    gravityStep ent s = none ↔ ((move s 0 1).2 = false ∧ s.y = 0) := by
  unfold gravityStep
  rcases hmv : move s 0 1 with ⟨sm, moved⟩
  rcases moved with _ | _
  · dsimp only
    have hsm : sm = s := by
      have := move_fail_fst s 0 1 (by rw [hmv])
      rwa [hmv] at this
    subst hsm
    by_cases hy : sm.y = 0
    · simp [hy]
    · simp [hy]
  · dsimp only
    simp

theorem count_set_aux : ∀ (l : List Nat) (iv : Nat), iv < l.length → ∀ (b c : Nat),
    (l.set iv b).count c + (if l.getD iv 0 = c then 1 else 0)
      = l.count c + (if b = c then 1 else 0) := by
  intro l
  induction l with
  | nil => intro iv h; simp at h
  | cons a t ih =>
    intro iv h b c
    cases iv with
    | zero =>
      simp only [List.set_cons_zero, List.count_cons, List.getD_cons_zero, beq_iff_eq]
      split_ifs <;> omega
    | succ n =>
      simp only [List.set_cons_succ, List.count_cons, List.getD_cons_succ,
        List.length_cons, beq_iff_eq] at *
      have := ih n (by omega) b c
      omega

theorem listSwap_perm (l : List Nat) (a b : Nat) (ha : a < l.length) (hb : b < l.length) :
    (listSwap l a b).Perm l := by
  rw [List.perm_iff_count]
  intro c
  have h2 := count_set_aux (l.set a (l.getD b 0)) b
    (by rw [List.length_set]; exact hb) (l.getD a 0) c
  have h1 := count_set_aux l a ha (l.getD b 0) c
  have hb2 : (l.set a (l.getD b 0)).getD b 0 = l.getD b 0 := by
    rw [getD_set]
    by_cases hab : a = b
    · rw [if_pos ⟨hab, ha⟩]
    · rw [if_neg (by tauto)]
  rw [hb2] at h2
  unfold listSwap
  omega

theorem shuffleGo_perm (ent : Nat → Nat) : ∀ (n : Nat) (arr : List Nat), n < arr.length →
    (shuffleGo ent arr n).Perm arr := by
  intro n
  induction n with
  | zero => intro arr h; exact List.Perm.refl arr
  | succ m ih =>
    intro arr h
    show (shuffleGo ent (listSwap arr (m + 1) (randAt ent (m + 1) (m + 2))) m).Perm arr
    have hj : randAt ent (m + 1) (m + 2) < m + 2 := Nat.mod_lt _ (by omega)
    have hswap : (listSwap arr (m + 1) (randAt ent (m + 1) (m + 2))).Perm arr :=
      listSwap_perm arr _ _ h (by omega)
    have hlen : (listSwap arr (m + 1) (randAt ent (m + 1) (m + 2))).length = arr.length := by
      unfold listSwap
      rw [List.length_set, List.length_set]
    exact (ih _ (by omega)).trans hswap

theorem spawn_bag_perm (ent : Nat → Nat) (s : GameState) (hlen : s.bag.length = 7) :
    ((spawn ent s).bag).Perm s.bag := by
  simp only [spawn]
  split
  · show (shuffle ent s.bag BAG_SIZE).Perm s.bag
    exact shuffleGo_perm ent 6 s.bag (by omega)
  · exact List.Perm.refl _

theorem list_length_seven {α : Type} (l : List α) (h : l.length = 7) :
    ∃ a0 a1 a2 a3 a4 a5 a6, l = [a0, a1, a2, a3, a4, a5, a6] := by
  rcases l with _ | ⟨a0, l⟩
  · simp at h
  rcases l with _ | ⟨a1, l⟩
  · simp at h
  rcases l with _ | ⟨a2, l⟩
  · simp at h
  rcases l with _ | ⟨a3, l⟩
  · simp at h
  rcases l with _ | ⟨a4, l⟩
  · simp at h
  rcases l with _ | ⟨a5, l⟩
  · simp at h
  rcases l with _ | ⟨a6, l⟩
  · simp at h
  rcases l with _ | ⟨a7, l⟩
  · exact ⟨a0, a1, a2, a3, a4, a5, a6, rfl⟩
  · simp at h

theorem spawn_i (ent : Nat → Nat) (s : GameState) :
    (spawn ent s).i = s.bag.getD s.p 0 := by
  simp only [spawn]
  split <;> rfl

theorem spawn_p (ent : Nat → Nat) (s : GameState) :
    (spawn ent s).p = if (s.p + 1) % 256 = BAG_SIZE then 0 else (s.p + 1) % 256 := by
  simp only [spawn]
  split <;> rfl

theorem spawn_bag (ent : Nat → Nat) (s : GameState) :
    (spawn ent s).bag =
      if (s.p + 1) % 256 = BAG_SIZE then shuffle ent s.bag BAG_SIZE else s.bag := by
  simp only [spawn]
  split <;> rfl

theorem spawnDraws_no_wrap : ∀ (es : List (Nat → Nat)) (s : GameState),
    s.p + es.length ≤ 7 →
    spawnDraws es s = (List.range es.length).map (fun k => s.bag.getD (s.p + k) 0) := by
  intro es
  induction es with
  | nil => intro s h; rfl
  | cons e rest ih =>
    intro s h
    show (spawn e s).i :: spawnDraws rest (spawn e s) = _
    have hi : (spawn e s).i = s.bag.getD s.p 0 := spawn_i e s
    rcases rest with _ | ⟨e1, rest1⟩
    · simp [spawnDraws, hi, show List.range 1 = [0] from rfl]
    · have hlen2 : (e1 :: rest1).length = rest1.length + 1 := rfl
      simp only [List.length_cons] at h
      have hplt : s.p + 1 < 7 := by omega
      have hmod : (s.p + 1) % 256 = s.p + 1 := Nat.mod_eq_of_lt (by omega)
      have hp2 : (spawn e s).p = s.p + 1 := by
        rw [spawn_p, hmod, if_neg (by simp only [BAG_SIZE]; omega)]
      have hb2 : (spawn e s).bag = s.bag := by
        rw [spawn_bag, hmod, if_neg (by simp only [BAG_SIZE]; omega)]
      have hrec := ih (spawn e s) (by rw [hp2]; simp only [List.length_cons]; omega)
      rw [hrec, hp2, hb2, hi]
      show s.bag.getD s.p 0 ::
          List.map (fun k => s.bag.getD (s.p + 1 + k) 0) (List.range (e1 :: rest1).length)
          = List.map (fun k => s.bag.getD (s.p + k) 0) (List.range ((e1 :: rest1).length + 1))
      generalize (e1 :: rest1).length = n
      rw [List.range_succ_eq_map, List.map_cons, List.map_map, Nat.add_zero]
      congr 1
      apply List.map_congr_left
      intro k hk
      simp only [Function.comp_apply]
      congr 1
      omega

theorem spawnDraws_seven (e0 e1 e2 e3 e4 e5 e6 : Nat → Nat) (s : GameState)
    (hp : s.p = 0) (hlen : s.bag.length = 7) :
    spawnDraws [e0, e1, e2, e3, e4, e5, e6] s = s.bag := by
  obtain ⟨b0, b1, b2, b3, b4, b5, b6, hbag⟩ := list_length_seven s.bag hlen
  have hmain := spawnDraws_no_wrap [e0, e1, e2, e3, e4, e5, e6] s (by simp [hp])
  rw [hmain, hp, hbag]
  rfl

theorem ghostLoop_first : ∀ (fuel : Nat) (w : List (List Nat)) (i r : Nat) (x : Int)
    (yv : Int) (k0 : Nat), k0 < fuel →
    collide w i r x (yv + (k0 : Int)) = true →
    (∀ m : Nat, m < k0 → collide w i r x (yv + (m : Int)) = false) →
    ghostLoop w i r x yv fuel = yv + (k0 : Int) := by
  intro fuel
  induction fuel with
  | zero => intro w i r x yv k0 h; omega
  | succ f ih =>
    intro w i r x yv k0 hlt hk0 hmin
    show (if collide w i r x yv then yv else ghostLoop w i r x (yv + 1) f) = yv + (k0 : Int)
    cases k0 with
    | zero =>
      have hc : collide w i r x yv = true := by
        have := hk0
        rwa [show yv + ((0 : Nat) : Int) = yv by simp] at this
      rw [if_pos hc]
      simp
    | succ k1 =>
      have hc : collide w i r x yv = false := by
        have := hmin 0 (by omega)
        rwa [show yv + ((0 : Nat) : Int) = yv by simp] at this
      rw [if_neg (by simp [hc])]
      have hcol : collide w i r x (yv + 1 + (k1 : Int)) = true := by
        rwa [show yv + 1 + (k1 : Int) = yv + ((k1 + 1 : Nat) : Int) by push_cast; ring]
      have hmin1 : ∀ m : Nat, m < k1 → collide w i r x (yv + 1 + (m : Int)) = false := by
        intro m hm
        have := hmin (m + 1) (by omega)
        rwa [show yv + ((m + 1 : Nat) : Int) = yv + 1 + (m : Int) by push_cast; ring] at this
      rw [ih w i r x (yv + 1) k1 (by omega) hcol hmin1]
      push_cast
      ring

theorem updateScore_score (t : GameState) (k : Nat)
    (hb : t.score + scoreFactor k * t.level < u32) :
    (updateScore t k).score = t.score + scoreFactor k * t.level := by
  match k with
  | 0 =>
    show t.score = t.score + scoreFactor 0 * t.level
    simp [scoreFactor]
  | 1 =>
    show (t.score + SCORE_FACTOR_1 * t.level % u32) % u32 = t.score + scoreFactor 1 * t.level
    simp only [scoreFactor, SCORE_FACTOR_1, u32] at hb ⊢
    omega
  | 2 =>
    show (t.score + SCORE_FACTOR_2 * t.level % u32) % u32 = t.score + scoreFactor 2 * t.level
    simp only [scoreFactor, SCORE_FACTOR_2, u32] at hb ⊢
    omega
  | 3 =>
    show (t.score + SCORE_FACTOR_3 * t.level % u32) % u32 = t.score + scoreFactor 3 * t.level
    simp only [scoreFactor, SCORE_FACTOR_3, u32] at hb ⊢
    omega
  | 4 =>
    show (t.score + SCORE_FACTOR_4 * t.level % u32) % u32 = t.score + scoreFactor 4 * t.level
    simp only [scoreFactor, SCORE_FACTOR_4, u32] at hb ⊢
    omega
  | n + 5 =>
    show t.score = t.score + scoreFactor (n + 5) * t.level
    simp [scoreFactor]

theorem updateLevel_eq (t : GameState) (k : Nat) (h256 : t.level_rows + k < 256)
    (hlv : t.level + 1 < u32) :
    updateLevel t k =
      if ROWS_PER_LEVEL ≤ t.level_rows + k then
        { t with level := t.level + 1,
                 level_rows := t.level_rows + k - ROWS_PER_LEVEL,
                 speed := speed_of_level (t.level + 1), level_up := 1 }
      else { t with level_rows := t.level_rows + k } := by
  simp only [updateLevel]
  rw [Nat.mod_eq_of_lt h256, Nat.mod_eq_of_lt hlv]

/-! ## Claim theorems -/

/-- Claim C3: if during an `update` call the gravity `move(0, 1)` fails
while the active piece's `y` equals the spawn row 0, then `game_over` is
set and `update` returns with nothing else changed (no lock, no spawn);
and once `game_over` holds, every `move`, `rotate`, `soft_drop` and `drop`
call leaves the state unchanged, `move` and `rotate` returning false. -/
theorem c3_game_over_trigger_and_freeze :
    (∀ (ent : Nat → Nat) (s : GameState), s.game_over = false →
       (move s 0 1).2 = false → s.y = 0 →
       update ent s = { s with game_over := true }) ∧
    (∀ (ent : Nat → Nat) (s : GameState) (dx dy : Int), s.game_over = true →
       move s dx dy = (s, false) ∧ rotate s = (s, false) ∧
       soft_drop s = s ∧ drop ent s = s) := by
  constructor
  · intro ent s hgo hm hy
    have hfst := move_fail_fst s 0 1 hm
    have hpair : move s 0 1 = (s, false) := by
      rcases hmv : move s 0 1 with ⟨sm, moved⟩
      rw [hmv] at hfst hm
      dsimp only at hfst hm
      rw [hfst, hm]
    unfold update gravityStep
    rw [hpair]
    dsimp only
    rw [if_pos hy]
  · intro ent s dx dy h
    refine ⟨move_gameover_eq s dx dy h, ?_, ?_, ?_⟩
    · simp [rotate, h]
    · unfold soft_drop
      rw [move_gameover_eq s 0 1 h]
    · simp [drop, h]

/-- Witness for C3 at concrete states: `blockedSpawnState` has an O piece
at the spawn position with an occupied cell directly below, so gravity
fails at `y = 0`; `frozenState` has `game_over` set. -/
def blockedSpawnState : GameState := mkState blockedSpawnWell 3 0 0 3 0

def frozenState : GameState := { mkState emptyWell 0 0 0 3 5 with game_over := true }

theorem c3_witness :
    (blockedSpawnState.game_over = false ∧ (move blockedSpawnState 0 1).2 = false ∧
       blockedSpawnState.y = 0 ∧ frozenState.game_over = true) ∧
    update zeroEnt blockedSpawnState = { blockedSpawnState with game_over := true } ∧
    (move frozenState 1 0 = (frozenState, false) ∧ rotate frozenState = (frozenState, false) ∧
       soft_drop frozenState = frozenState ∧ drop zeroEnt frozenState = frozenState) := by
  refine ⟨⟨rfl, by decide, rfl, rfl⟩, ?_, ?_⟩
  · exact c3_game_over_trigger_and_freeze.1 zeroEnt blockedSpawnState rfl (by decide) rfl
  · exact c3_game_over_trigger_and_freeze.2 zeroEnt frozenState 1 0 rfl

/-- Claim C7: for every non-game-over state (with positions in `int8_t`
range), `move(dx, dy)` tests collision at `(x + dx, y + dy)` with the
current kind and rotation — on collision it returns false leaving the state
unchanged, otherwise it adds `(dx, dy)` to the position and returns true;
`rotate()` tests collision at the unchanged `(x, y)` with rotation
`(r + 1) % 4` and no wall-kick offsets — on collision it returns false
leaving the state unchanged, otherwise it commits only the new rotation
and returns true. -/
theorem c7_move_rotate_semantics :
    (∀ (s : GameState) (dx dy : Int), s.game_over = false →
       -128 ≤ s.x + dx → s.x + dx ≤ 127 → -128 ≤ s.y + dy → s.y + dy ≤ 127 →
       move s dx dy =
         if collide s.well s.i s.r (s.x + dx) (s.y + dy) then (s, false)
         else ({ s with x := s.x + dx, y := s.y + dy }, true)) ∧
    (∀ s : GameState, s.game_over = false →
       rotate s =
         if collide s.well s.i ((s.r + 1) % 4) s.x s.y then (s, false)
         else ({ s with r := (s.r + 1) % 4 }, true)) := by
  constructor
  · intro s dx dy hgo hx1 hx2 hy1 hy2
    rw [move_eq_of_not_gameover s dx dy hgo, int8_eq_self _ hx1 hx2, int8_eq_self _ hy1 hy2]
  · intro s hgo
    simp [rotate, hgo]

/-- Claim C5: an `update` call that detects exactly `k` full rows
(`k ≤ 4`) increases the score by exactly `F_k * level` with
`(F_1, F_2, F_3, F_4) = (100, 300, 500, 800)` and `level` the level current
at that call; `k = 0` leaves the score unchanged (`scoreFactor 0 = 0`).
`s1` is the state after the gravity step, whose well the row scan reads. -/
theorem c5_scoring (ent : Nat → Nat) (s s1 : GameState) (k : Nat)
    (hgo : s.game_over = false)
    (hg : gravityStep ent s = some s1)
    (hk : (fullRows s1.well).length = k) (hk4 : k ≤ 4)
    (hbound : s.score + scoreFactor k * s.level < u32) :
    (update ent s).score = s.score + scoreFactor k * s.level := by
  have hf := gravityStep_fields ent s s1 hg
  have hupd : update ent s = updateScan s1 := by
    unfold update
    rw [hg]
  rw [hupd]
  simp only [updateScan]
  rw [(updateLevel_fields _ _).1, hk]
  rw [updateScore_score _ k ?hb]
  case hb =>
    show s1.score + scoreFactor k * s1.level < u32
    rw [hf.1, hf.2.1]
    exact hbound
  show s1.score + scoreFactor k * s1.level = s.score + scoreFactor k * s.level
  rw [hf.1, hf.2.1]

def c5State : GameState := mkState bottomFullWell 0 0 0 3 0

theorem c5_witness :
    (c5State.game_over = false ∧
       gravityStep zeroEnt c5State = some { c5State with x := 3, y := 1 } ∧
       (fullRows ({ c5State with x := 3, y := 1 } : GameState).well).length = 1 ∧
       (1 : Nat) ≤ 4 ∧ c5State.score + scoreFactor 1 * c5State.level < u32) ∧
    (update zeroEnt c5State).score = c5State.score + scoreFactor 1 * c5State.level := by
  refine ⟨⟨rfl, by decide, by decide, by decide, by decide⟩, ?_⟩
  exact c5_scoring zeroEnt c5State { c5State with x := 3, y := 1 } 1 rfl
    (by decide) (by decide) (by decide) (by decide)

/-- Claim C6 (amended): the per-level row counter accumulates the rows
detected full by each `update` call; on the call where it reaches at least
`ROWS_PER_LEVEL = 10`, the level increases by exactly 1, the counter is
reduced by exactly 10 (keeping the remainder), and the speed is recomputed
as `10 + 990 / level` milliseconds (integer division) — which never
increases as the level grows, but is not strictly smaller for every larger
level (see the counterexample at levels 32 and 33). -/
theorem c6_leveling (ent : Nat → Nat) (s s1 : GameState) (k : Nat)
    (hgo : s.game_over = false)
    (hg : gravityStep ent s = some s1)
    (hk : (fullRows s1.well).length = k)
    (h256 : s.level_rows + k < 256) (hlv : s.level + 1 < u32) :
    ((ROWS_PER_LEVEL ≤ s.level_rows + k →
        (update ent s).level = s.level + 1 ∧
        (update ent s).level_rows = s.level_rows + k - ROWS_PER_LEVEL ∧
        (update ent s).speed = speed_of_level (s.level + 1) ∧
        (update ent s).level_up = 1) ∧
     (s.level_rows + k < ROWS_PER_LEVEL →
        (update ent s).level = s.level ∧
        (update ent s).level_rows = s.level_rows + k ∧
        (update ent s).speed = s.speed)) ∧
    (∀ l1 l2 : Nat, 1 ≤ l1 → l1 ≤ l2 → speed_of_level l2 ≤ speed_of_level l1) := by
  have hf := gravityStep_fields ent s s1 hg
  have hupd : update ent s = updateScan s1 := by
    unfold update
    rw [hg]
  constructor
  · rw [hupd]
    simp only [updateScan]
    rw [hk]
    have hTf := updateScore_fields
      ({ s1 with cleared_rows := recordRows s1.cleared_rows (fullRows s1.well) 0 }) k
    have hTlr : (updateScore
        ({ s1 with cleared_rows := recordRows s1.cleared_rows (fullRows s1.well) 0 }) k).level_rows
        = s.level_rows := by
      rw [hTf.2.1]
      exact hf.2.2.1
    have hTlv : (updateScore
        ({ s1 with cleared_rows := recordRows s1.cleared_rows (fullRows s1.well) 0 }) k).level
        = s.level := by
      rw [hTf.1]
      exact hf.2.1
    have hTsp : (updateScore
        ({ s1 with cleared_rows := recordRows s1.cleared_rows (fullRows s1.well) 0 }) k).speed
        = s.speed := by
      rw [hTf.2.2.1]
      exact hf.2.2.2.1
    rw [updateLevel_eq _ k (by rw [hTlr]; exact h256) (by rw [hTlv]; exact hlv)]
    rw [hTlr, hTlv, hTsp]
    constructor
    · intro hge
      rw [if_pos hge]
      exact ⟨rfl, rfl, rfl, rfl⟩
    · intro hlt
      rw [if_neg (by omega)]
      exact ⟨rfl, rfl, rfl⟩
  · intro l1 l2 h1 h12
    unfold speed_of_level
    have : 990 / l2 ≤ 990 / l1 := Nat.div_le_div_left h12 h1
    omega

/-- Counterexample for C6 as stated: the recomputed speed is not strictly
smaller for a larger level.  Leveling up to level 32 and leveling up to
level 33 both set the speed to 40 ms, since `990 / 32 = 990 / 33 = 30`. -/
def levelUpState (lv : Nat) : GameState :=
  { mkState emptyWell 0 0 0 3 0 with level := lv, level_rows := 9 }

theorem c6_counterexample :
    (updateLevel (levelUpState 31) 1).level = 32 ∧
    (updateLevel (levelUpState 32) 1).level = 33 ∧
    (updateLevel (levelUpState 31) 1).speed = 40 ∧
    (updateLevel (levelUpState 32) 1).speed = 40 ∧
    speed_of_level 33 = speed_of_level 32 := by decide

def c6State : GameState := { mkState bottomFullWell 0 0 0 3 0 with level_rows := 9 }

theorem c6_witness :
    (c6State.game_over = false ∧
       gravityStep zeroEnt c6State = some { c6State with x := 3, y := 1 } ∧
       (fullRows ({ c6State with x := 3, y := 1 } : GameState).well).length = 1 ∧
       c6State.level_rows + 1 < 256 ∧ c6State.level + 1 < u32 ∧
       ROWS_PER_LEVEL ≤ c6State.level_rows + 1) ∧
    ((update zeroEnt c6State).level = c6State.level + 1 ∧
       (update zeroEnt c6State).level_rows = c6State.level_rows + 1 - ROWS_PER_LEVEL ∧
       (update zeroEnt c6State).speed = speed_of_level (c6State.level + 1) ∧
       (update zeroEnt c6State).level_up = 1) ∧
    speed_of_level 3 ≤ speed_of_level 2 := by
  refine ⟨⟨rfl, by decide, by decide, by decide, by decide, by decide⟩, ?_, ?_⟩
  · exact (c6_leveling zeroEnt c6State { c6State with x := 3, y := 1 } 1 rfl
      (by decide) (by decide) (by decide) (by decide)).1.1 (by decide)
  · exact (c6_leveling zeroEnt c6State { c6State with x := 3, y := 1 } 1 rfl
      (by decide) (by decide) (by decide) (by decide)).2 2 3 (by decide) (by decide)

/-- Claim C1 (amended): `collide(i, r, x, y)` returns true if and only if
some nonzero cell of the catalog entry `(i, r)` maps to a board coordinate
that is out of horizontal bounds, out of vertical bounds — above the top
(`y + yy < 0`) or at or below the bottom — or overlaps a nonzero well
cell.  Contrary to the claim as stated, the code does check the top bound:
see `c1_counterexample`. -/
theorem c1_collide_iff (w : List (List Nat)) (i r : Nat) (x y : Int) :
    collide w i r x y = true ↔
      ∃ yy, yy < 4 ∧ ∃ xx, xx < 4 ∧ tetrisCell i r yy xx ≠ 0 ∧
        (x + (xx : Int) < 0 ∨ 10 ≤ x + (xx : Int) ∨ y + (yy : Int) < 0 ∨
         22 ≤ y + (yy : Int) ∨ wellCell w (y + (yy : Int)) (x + (xx : Int)) ≠ 0) := by
  simp only [collide, List.any_eq_true, List.mem_range, Bool.and_eq_true, Bool.or_eq_true,
    decide_eq_true_eq, bne_iff_ne, ne_eq]
  constructor
  · rintro ⟨yy, hyy, xx, hxx, hcell, hdisj⟩
    exact ⟨yy, hyy, xx, hxx, hcell, by tauto⟩
  · rintro ⟨yy, hyy, xx, hxx, hcell, hdisj⟩
    exact ⟨yy, hyy, xx, hxx, hcell, by tauto⟩

/-- Counterexample for C1 as stated: over the empty well, the I piece in
rotation 0 placed at `(x, y) = (3, -2)` has its nonzero cells at board row
-1, columns 3..6 — in horizontal bounds, above the bottom, overlapping no
occupied cell — yet `collide` returns true, because the code does bound
check against the top (`y + yy < 0`).  `collideSpecNoTop`, the test as the
spec words it, returns false there. -/
theorem c1_counterexample :
    collide emptyWell 0 0 3 (-2) = true ∧
    collideSpecNoTop emptyWell 0 0 3 (-2) = false := by decide

/-- Claim C2 (amended): for a well of 22 rows with `cleared_rows` holding
`[R1, R2, 0, 0]` where `1 ≤ R1 < R2 ≤ 21`, `clear_rows()` shifts every row
above `R1` down by 2, shifts every row strictly between `R1` and `R2` down
by 1, leaves every row below `R2` unchanged, makes both of the two topmost
rows copies of the old row 0 (hence empty exactly when row 0 was already
empty — reachable play always keeps row 0 empty), and empties the
cleared-rows set.  The shift by 2 claimed for all rows above `R2`, and the
unconditionally empty top rows, fail: see `c2_counterexample`.  The case
`R1 = 0` is excluded because `clear_rows` treats a zero entry as the end of
the cleared-rows list and would clear nothing. -/
theorem c2_clear_rows (w : List (List Nat)) (R1 R2 : Nat)
    (hw : w.length = 22) (h1 : 1 ≤ R1) (h12 : R1 < R2) (h2 : R2 ≤ 21) :
    (clear_rows w [(R1 : Int), (R2 : Int), 0, 0]).2 = [0, 0, 0, 0] ∧
    (∀ yv : Nat, R2 < yv → yv < 22 →
       (clear_rows w [(R1 : Int), (R2 : Int), 0, 0]).1.getD yv [] = w.getD yv []) ∧
    (∀ yv : Nat, R1 < yv → yv < R2 →
       (clear_rows w [(R1 : Int), (R2 : Int), 0, 0]).1.getD (yv + 1) [] = w.getD yv []) ∧
    (∀ yv : Nat, yv < R1 →
       (clear_rows w [(R1 : Int), (R2 : Int), 0, 0]).1.getD (yv + 2) [] = w.getD yv []) ∧
    (clear_rows w [(R1 : Int), (R2 : Int), 0, 0]).1.getD 0 [] = w.getD 0 [] ∧
    (clear_rows w [(R1 : Int), (R2 : Int), 0, 0]).1.getD 1 [] = w.getD 0 [] := by
  rw [clear_rows_pair w R1 R2 h1 h12]
  have hlen1 : (shiftDownFrom w R1).length = w.length := shiftDownFrom_length R1 w
  have houter : ∀ yv : Nat, (shiftDownFrom (shiftDownFrom w R1) R2).getD yv [] =
      if 1 ≤ yv ∧ yv ≤ R2 then (shiftDownFrom w R1).getD (yv - 1) []
      else (shiftDownFrom w R1).getD yv [] :=
    fun yv => shiftDownFrom_getD R2 _ (by rw [hlen1, hw]; omega) yv
  have hinner : ∀ yv : Nat, (shiftDownFrom w R1).getD yv [] =
      if 1 ≤ yv ∧ yv ≤ R1 then w.getD (yv - 1) [] else w.getD yv [] :=
    fun yv => shiftDownFrom_getD R1 w (by rw [hw]; omega) yv
  refine ⟨rfl, ?_, ?_, ?_, ?_, ?_⟩
  · intro yv ha hb
    rw [houter, if_neg (by omega), hinner, if_neg (by omega)]
  · intro yv ha hb
    rw [houter, if_pos (by omega), hinner, if_neg (by omega)]
    congr 1
  · intro yv ha
    rw [houter, if_pos (by omega), hinner, if_pos (by omega)]
    congr 1
  · rw [houter, if_neg (by omega), hinner, if_neg (by omega)]
  · rw [houter, if_pos (by omega), hinner, if_neg (by omega)]

/-- Counterexample for C2 as stated: `c2Well` has exactly rows 2 and 4
full, a cell at (row 0, col 0) and a cell at (row 3, col 0).  After
`clear_rows` with `cleared_rows = [2, 4, 0, 0]`, the old row 3 — a row
above `R2 = 4` — lands at row 4 (shifted by 1, not by 2, so row 5 does not
receive it), and the two topmost rows are copies of the old nonempty row 0
rather than empty. -/
theorem c2_counterexample :
    rowFull c2Well 2 = true ∧ rowFull c2Well 4 = true ∧
    (∀ yv : Nat, yv < 22 → yv ≠ 2 → yv ≠ 4 → rowFull c2Well yv = false) ∧
    (clear_rows c2Well [2, 4, 0, 0]).1.getD 5 [] ≠ c2Well.getD 3 [] ∧
    (clear_rows c2Well [2, 4, 0, 0]).1.getD 4 [] = c2Well.getD 3 [] ∧
    (clear_rows c2Well [2, 4, 0, 0]).1.getD 0 [] ≠ List.replicate 10 0 ∧
    (clear_rows c2Well [2, 4, 0, 0]).1.getD 1 [] ≠ List.replicate 10 0 := by decide

/-- A well with exactly rows 20 and 21 full and empty row 0, used as the
C2 witness input. -/
def adjacentFullWell : List (List Nat) :=
  (emptyWell.set 20 fullTestRow).set 21 fullTestRow

theorem c2_witness :
    (adjacentFullWell.length = 22 ∧ 1 ≤ 20 ∧ 20 < 21 ∧ 21 ≤ 21) ∧
    ((clear_rows adjacentFullWell [(20 : Int), (21 : Int), 0, 0]).2 = [0, 0, 0, 0] ∧
     (∀ yv : Nat, 21 < yv → yv < 22 →
        (clear_rows adjacentFullWell [(20 : Int), (21 : Int), 0, 0]).1.getD yv []
          = adjacentFullWell.getD yv []) ∧
     (∀ yv : Nat, 20 < yv → yv < 21 →
        (clear_rows adjacentFullWell [(20 : Int), (21 : Int), 0, 0]).1.getD (yv + 1) []
          = adjacentFullWell.getD yv []) ∧
     (∀ yv : Nat, yv < 20 →
        (clear_rows adjacentFullWell [(20 : Int), (21 : Int), 0, 0]).1.getD (yv + 2) []
          = adjacentFullWell.getD yv []) ∧
     (clear_rows adjacentFullWell [(20 : Int), (21 : Int), 0, 0]).1.getD 0 []
       = adjacentFullWell.getD 0 [] ∧
     (clear_rows adjacentFullWell [(20 : Int), (21 : Int), 0, 0]).1.getD 1 []
       = adjacentFullWell.getD 0 []) := by
  refine ⟨⟨by decide, by decide, by decide, by decide⟩, ?_⟩
  exact c2_clear_rows adjacentFullWell 20 21 (by decide) (by decide) (by decide) (by decide)

/-- Claim C4 (amended): for every well state and active piece whose
current position does not collide and which collides at some strictly
lower position within the well height, `ghost()` sets `current.g` to the
LEAST `y* ≥ y` such that the piece does not collide at `y*` and collides
at `y* + 1`.  The claim's uniqueness of such a `y*` fails — under an
overhang there can be several resting positions and `ghost` picks the
highest (see `c4_counterexample`). -/
theorem c4_ghost (s : GameState)
    (h0 : collide s.well s.i s.r s.x s.y = false)
    (hex : ∃ yc : Int, s.y < yc ∧ yc < 22 ∧ collide s.well s.i s.r s.x yc = true) :
    s.y ≤ (ghost s).g ∧
    collide s.well s.i s.r s.x ((ghost s).g) = false ∧
    collide s.well s.i s.r s.x ((ghost s).g + 1) = true ∧
    (∀ z : Int, s.y ≤ z → z < (ghost s).g →
       ¬(collide s.well s.i s.r s.x z = false ∧
         collide s.well s.i s.r s.x (z + 1) = true)) := by
  obtain ⟨yc, hyc1, hyc2, hyc3⟩ := hex
  have hQex : ∃ k : Nat, collide s.well s.i s.r s.x (s.y + (k : Int)) = true :=
    ⟨(yc - s.y).toNat, by
      rw [show s.y + (((yc - s.y).toNat : Nat) : Int) = yc by omega]
      exact hyc3⟩
  have hk0 : collide s.well s.i s.r s.x (s.y + ((Nat.find hQex : Nat) : Int)) = true :=
    Nat.find_spec hQex
  have hmin : ∀ m : Nat, m < Nat.find hQex →
      collide s.well s.i s.r s.x (s.y + (m : Int)) = false := by
    intro m hm
    have := Nat.find_min hQex hm
    exact Bool.not_eq_true _ ▸ by simpa using this
  have hk0pos : 1 ≤ Nat.find hQex := by
    by_contra hcon
    have h00 : Nat.find hQex = 0 := by omega
    rw [h00] at hk0
    rw [show s.y + ((0 : Nat) : Int) = s.y by simp] at hk0
    rw [hk0] at h0
    exact Bool.noConfusion h0
  have hk0le : Nat.find hQex ≤ (yc - s.y).toNat := by
    apply Nat.find_min' hQex
    rw [show s.y + (((yc - s.y).toNat : Nat) : Int) = yc by omega]
    exact hyc3
  have hfuel : Nat.find hQex < ((22 : Int) - s.y).toNat := by omega
  have hloop := ghostLoop_first (((22 : Int) - s.y).toNat) s.well s.i s.r s.x s.y
    (Nat.find hQex) hfuel hk0 hmin
  have hg : (ghost s).g = s.y + ((Nat.find hQex : Nat) : Int) - 1 := by
    show ghostLoop s.well s.i s.r s.x s.y ((((WELL_HEIGHT : Nat) : Int)) - s.y).toNat - 1 = _
    rw [show (((WELL_HEIGHT : Nat) : Int)) = (22 : Int) by decide]
    rw [hloop]
  refine ⟨?_, ?_, ?_, ?_⟩
  · rw [hg]
    omega
  · rw [hg]
    have := hmin (Nat.find hQex - 1) (by omega)
    rwa [show s.y + ((Nat.find hQex - 1 : Nat) : Int) =
        s.y + ((Nat.find hQex : Nat) : Int) - 1 by omega] at this
  · rw [hg]
    rw [show s.y + ((Nat.find hQex : Nat) : Int) - 1 + 1 =
        s.y + ((Nat.find hQex : Nat) : Int) by ring]
    exact hk0
  · intro z hz1 hz2
    rintro ⟨hzf, hzt⟩
    rw [hg] at hz2
    have hmlt : (z + 1 - s.y).toNat < Nat.find hQex := by omega
    have hfalse := hmin _ hmlt
    rw [show s.y + (((z + 1 - s.y).toNat : Nat) : Int) = z + 1 by omega] at hfalse
    rw [hfalse] at hzt
    exact Bool.noConfusion hzt

/-- The overhang state used to refute and to witness C4: an O piece at
`(x, y) = (0, 0)` over `overhangWell`. -/
def c4State : GameState := mkState overhangWell 3 0 0 0 0

/-- Counterexample for C4 as stated: at `c4State` the hypotheses of the
claim hold, yet both `y* = 2` and `y* = 7` satisfy "collides at `y* + 1`
but not at `y*`", so there is no unique such `y*`; `ghost` picks the
smallest, 2. -/
theorem c4_counterexample :
    collide c4State.well c4State.i c4State.r c4State.x c4State.y = false ∧
    (c4State.y < 3 ∧ (3 : Int) < 22 ∧
       collide c4State.well c4State.i c4State.r c4State.x 3 = true) ∧
    (ghost c4State).g = 2 ∧
    (collide c4State.well c4State.i c4State.r c4State.x 2 = false ∧
       collide c4State.well c4State.i c4State.r c4State.x 3 = true) ∧
    (collide c4State.well c4State.i c4State.r c4State.x 7 = false ∧
       collide c4State.well c4State.i c4State.r c4State.x 8 = true) ∧
    (2 : Int) ≠ 7 := by decide

theorem c4_witness :
    (collide c4State.well c4State.i c4State.r c4State.x c4State.y = false ∧
       c4State.y < 3 ∧ (3 : Int) < 22 ∧
       collide c4State.well c4State.i c4State.r c4State.x 3 = true) ∧
    (c4State.y ≤ (ghost c4State).g ∧
     collide c4State.well c4State.i c4State.r c4State.x ((ghost c4State).g) = false ∧
     collide c4State.well c4State.i c4State.r c4State.x ((ghost c4State).g + 1) = true ∧
     (∀ z : Int, c4State.y ≤ z → z < (ghost c4State).g →
        ¬(collide c4State.well c4State.i c4State.r c4State.x z = false ∧
          collide c4State.well c4State.i c4State.r c4State.x (z + 1) = true))) := by
  refine ⟨⟨by decide, by decide, by decide, by decide⟩, ?_⟩
  exact c4_ghost c4State (by decide) ⟨3, by decide, by decide, by decide⟩

/-- Claim C9: the bag always holds a permutation of the seven kind
indices 0..6 — true of its initial value, preserved by every `shuffle`
(which only swaps elements) and by every `spawn` (which rewrites the bag
only by reshuffling it) — and consequently 7 consecutive `spawn` draws
aligned to a reshuffle boundary (cursor `p = 0`) deal exactly the bag's 7
entries, each of the 7 kinds exactly once. -/
theorem c9_bag_invariant :
    initialBag.Perm (List.range BAG_SIZE) ∧
    (∀ (ent : Nat → Nat) (arr : List Nat), arr.length = 7 →
       (shuffle ent arr BAG_SIZE).Perm arr) ∧
    (∀ (ent : Nat → Nat) (s : GameState), s.bag.length = 7 →
       ((spawn ent s).bag).Perm s.bag) ∧
    (∀ (e0 e1 e2 e3 e4 e5 e6 : Nat → Nat) (s : GameState),
       s.p = 0 → s.bag.length = 7 → s.bag.Perm (List.range BAG_SIZE) →
       spawnDraws [e0, e1, e2, e3, e4, e5, e6] s = s.bag ∧
       (spawnDraws [e0, e1, e2, e3, e4, e5, e6] s).Perm (List.range BAG_SIZE)) := by
  refine ⟨by decide, ?_, ?_, ?_⟩
  · intro ent arr hlen
    exact shuffleGo_perm ent 6 arr (by omega)
  · intro ent s hlen
    exact spawn_bag_perm ent s hlen
  · intro e0 e1 e2 e3 e4 e5 e6 s hp hlen hperm
    have hdraws := spawnDraws_seven e0 e1 e2 e3 e4 e5 e6 s hp hlen
    exact ⟨hdraws, hdraws ▸ hperm⟩

theorem c9_witness :
    ((mkState emptyWell 0 0 0 3 0).p = 0 ∧ (mkState emptyWell 0 0 0 3 0).bag.length = 7 ∧
       (mkState emptyWell 0 0 0 3 0).bag.Perm (List.range BAG_SIZE)) ∧
    (spawnDraws [zeroEnt, zeroEnt, zeroEnt, zeroEnt, zeroEnt, zeroEnt, zeroEnt]
        (mkState emptyWell 0 0 0 3 0) = (mkState emptyWell 0 0 0 3 0).bag ∧
     (spawnDraws [zeroEnt, zeroEnt, zeroEnt, zeroEnt, zeroEnt, zeroEnt, zeroEnt]
        (mkState emptyWell 0 0 0 3 0)).Perm (List.range BAG_SIZE)) := by
  refine ⟨⟨rfl, by decide, by decide⟩, ?_⟩
  exact c9_bag_invariant.2.2.2 zeroEnt zeroEnt zeroEnt zeroEnt zeroEnt zeroEnt zeroEnt
    (mkState emptyWell 0 0 0 3 0) rfl (by decide) (by decide)

/-- Claim C10: `spawn` unconditionally — with no collision check, even
over a well where the placement overlaps occupied cells — sets the active
piece to the preview kind `bag[p]` with rotation 0 at
`x = WELL_WIDTH / 2 - 2 = 3`, `y = 0`, increments that kind's statistics
counter by exactly 1, advances the bag cursor (reshuffling and resetting it
to 0 when it passes the last slot), and leaves the well and the game-over
flag untouched; a colliding spawn only becomes game over through a later
`update` whose gravity move fails while `y = 0`. -/
theorem c10_spawn_unconditional :
    (∀ (ent : Nat → Nat) (s : GameState),
       (spawn ent s).i = s.bag.getD s.p 0 ∧ (spawn ent s).r = 0 ∧
       (spawn ent s).x = 3 ∧ (spawn ent s).y = 0 ∧
       (spawn ent s).well = s.well ∧ (spawn ent s).game_over = s.game_over ∧
       (spawn ent s).p = (if (s.p + 1) % 256 = BAG_SIZE then 0 else (s.p + 1) % 256) ∧
       (spawn ent s).bag =
         (if (s.p + 1) % 256 = BAG_SIZE then shuffle ent s.bag BAG_SIZE else s.bag) ∧
       (s.bag.getD s.p 0 < s.stats.length →
          (spawn ent s).stats.getD (s.bag.getD s.p 0) 0 =
            (s.stats.getD (s.bag.getD s.p 0) 0 + 1) % u32)) ∧
    (∀ (ent : Nat → Nat) (s : GameState), s.game_over = false →
       ((update ent s).game_over = true ↔ ((move s 0 1).2 = false ∧ s.y = 0))) := by
  constructor
  · intro ent s
    have hx : ((WELL_WIDTH : Nat) : Int) / 2 - 2 = 3 := by decide
    by_cases hp : (s.p + 1) % 256 = BAG_SIZE
    · exact ⟨by simp [spawn, hp], by simp [spawn, hp], by simp [spawn, hp, hx],
        by simp [spawn, hp], by simp [spawn, hp], by simp [spawn, hp],
        by simp [spawn, hp], by simp [spawn, hp],
        fun h => by
          have hs : (spawn ent s).stats = bumpStat s.stats (s.bag.getD s.p 0) := by
            simp only [spawn]
            split <;> rfl
          rw [hs, bumpStat_getD s.stats _ h]⟩
    · exact ⟨by simp [spawn, hp], by simp [spawn, hp], by simp [spawn, hp, hx],
        by simp [spawn, hp], by simp [spawn, hp], by simp [spawn, hp],
        by simp [spawn, hp], by simp [spawn, hp],
        fun h => by
          have hs : (spawn ent s).stats = bumpStat s.stats (s.bag.getD s.p 0) := by
            simp only [spawn]
            split <;> rfl
          rw [hs, bumpStat_getD s.stats _ h]⟩
  · intro ent s hgo
    rcases hgs : gravityStep ent s with _ | s1
    · have h1 : update ent s = { s with game_over := true } := by
        unfold update
        rw [hgs]
      rw [h1]
      exact iff_of_true rfl ((gravityStep_none_iff ent s).1 hgs)
    · have h1 : update ent s = updateScan s1 := by
        unfold update
        rw [hgs]
      rw [h1, updateScan_game_over, (gravityStep_fields ent s s1 hgs).2.2.2.2, hgo]
      refine iff_of_false (by simp) ?_
      intro h
      rw [(gravityStep_none_iff ent s).2 h] at hgs
      exact Option.noConfusion hgs

def c10State : GameState :=
  { mkState blockedSpawnWell 5 2 3 4 7 with stats := List.replicate 7 0, g := 7 }

theorem c10_witness :
    (c10State.bag.getD c10State.p 0 < c10State.stats.length ∧
       blockedSpawnState.game_over = false) ∧
    ((spawn zeroEnt c10State).i = c10State.bag.getD c10State.p 0 ∧
       (spawn zeroEnt c10State).r = 0 ∧ (spawn zeroEnt c10State).x = 3 ∧
       (spawn zeroEnt c10State).y = 0 ∧ (spawn zeroEnt c10State).well = c10State.well ∧
       (spawn zeroEnt c10State).game_over = c10State.game_over ∧
       (spawn zeroEnt c10State).stats.getD (c10State.bag.getD c10State.p 0) 0 =
         (c10State.stats.getD (c10State.bag.getD c10State.p 0) 0 + 1) % u32) ∧
    ((update zeroEnt blockedSpawnState).game_over = true ↔
       ((move blockedSpawnState 0 1).2 = false ∧ blockedSpawnState.y = 0)) := by
  refine ⟨⟨by decide, rfl⟩, ?_, ?_⟩
  · obtain ⟨h1, h2, h3, h4, h5, h6, -, -, h9⟩ :=
      (c10_spawn_unconditional.1 zeroEnt c10State)
    exact ⟨h1, h2, h3, h4, h5, h6, h9 (by decide)⟩
  · exact c10_spawn_unconditional.2 zeroEnt blockedSpawnState rfl

/-- Claim C8: after the opening reshuffle loop terminates (modelled by
`openingShuffle` returning `some`), the first `spawn` of a fresh game
(cursor `p = 0`) never deals kind S (index 4) or kind Z (index 6). -/
theorem c8_first_piece (ents : List (Nat → Nat)) (b0 b : List Nat)
    (h : openingShuffle ents b0 = some b) (ent : Nat → Nat) (s : GameState)
    (hp : s.p = 0) (hb : s.bag = b) :
    (spawn ent s).i ≠ 4 ∧ (spawn ent s).i ≠ 6 := by
  have hfirst : b.getD 0 0 ≠ 4 ∧ b.getD 0 0 ≠ 6 := by
    induction ents generalizing b0 with
    | nil => exact Option.noConfusion h
    | cons e rest ih =>
      unfold openingShuffle at h
      dsimp only at h
      split at h
      · exact ih _ h
      · rename_i hcond
        obtain rfl : shuffle e b0 BAG_SIZE = b := by injection h
        push_neg at hcond
        exact hcond
  have hi : (spawn ent s).i = s.bag.getD s.p 0 := by
    simp only [spawn]
    split <;> rfl
  rw [hi, hp, hb]
  exact hfirst

theorem c8_witness :
    openingShuffle [zeroEnt] initialBag = some [1, 2, 3, 4, 5, 6, 0] ∧
    (mkState emptyWell 0 0 0 3 0).p = 0 ∧
    ({ mkState emptyWell 0 0 0 3 0 with bag := [1, 2, 3, 4, 5, 6, 0] } : GameState).bag
      = [1, 2, 3, 4, 5, 6, 0] ∧
    ((spawn zeroEnt
        ({ mkState emptyWell 0 0 0 3 0 with bag := [1, 2, 3, 4, 5, 6, 0] })).i ≠ 4 ∧
     (spawn zeroEnt
        ({ mkState emptyWell 0 0 0 3 0 with bag := [1, 2, 3, 4, 5, 6, 0] })).i ≠ 6) := by
  refine ⟨by decide, rfl, rfl, ?_⟩
  exact c8_first_piece [zeroEnt] initialBag [1, 2, 3, 4, 5, 6, 0] (by decide) zeroEnt
    ({ mkState emptyWell 0 0 0 3 0 with bag := [1, 2, 3, 4, 5, 6, 0] }) rfl rfl

theorem c7_witness :
    (blockedSpawnState.game_over = false ∧
       -128 ≤ blockedSpawnState.x + 1 ∧ blockedSpawnState.x + 1 ≤ 127 ∧
       -128 ≤ blockedSpawnState.y + 0 ∧ blockedSpawnState.y + 0 ≤ 127) ∧
    move blockedSpawnState 1 0 =
      (if collide blockedSpawnState.well blockedSpawnState.i blockedSpawnState.r
          (blockedSpawnState.x + 1) (blockedSpawnState.y + 0) then (blockedSpawnState, false)
       else ({ blockedSpawnState with
                 x := blockedSpawnState.x + 1, y := blockedSpawnState.y + 0 }, true)) ∧
    rotate blockedSpawnState =
      (if collide blockedSpawnState.well blockedSpawnState.i
          ((blockedSpawnState.r + 1) % 4) blockedSpawnState.x blockedSpawnState.y
       then (blockedSpawnState, false)
       else ({ blockedSpawnState with r := (blockedSpawnState.r + 1) % 4 }, true)) := by
  refine ⟨⟨rfl, by decide, by decide, by decide, by decide⟩, ?_, ?_⟩
  · exact c7_move_rotate_semantics.1 blockedSpawnState 1 0 rfl (by decide) (by decide)
      (by decide) (by decide)
  · exact c7_move_rotate_semantics.2 blockedSpawnState rfl

end Tetris
